import Mathlib

/-!
# dynamic-port-forward: a shallow embedding of `main.go`

The Go program is embedded function by function.  Every function that performs
I/O is modelled as a pure function that returns the list of `Action`s it
performs, in program order; whatever the operating system decides (whether a
bind succeeds, what a lookup answers, when a copy ends) enters as an argument.
Byte slices are lists of naturals, durations are nanosecond counts as in Go's
`time.Duration`.
-/

namespace DynamicPortForward

/-! ## Data model -/

/-- The record `ForwardGroup` of `main.go`, field for field. -/
structure ForwardGroup where
  Listen : String
  ListenPort : String
  ListenHost : String
  Forward : String
  ForwardPort : String
  ForwardHost : String
  Proto : String
deriving DecidableEq, Repr

/-- The functions of the program that are started as tasks. -/
inductive Fn where
  | handleTCP
  | handleUDP
  | watch
  | handleConnection
  | handleConnectionUDP
  | forward
  /-- The anonymous goroutine of `forward` running `io.Copy(src, dest)`. -/
  | copyToSrc
  /-- The anonymous goroutine of `forward` running `io.Copy(dest, src)`. -/
  | copyToDest
  /-- The anonymous goroutine of `forward` running `wg.Wait()` and `ch <- 1`. -/
  | waiter
deriving DecidableEq, Repr

/-- The sockets a function holds, under the variable names of the source. -/
inductive Sock where
  | ln
  | c
  | remote
  | src
  | dest
deriving DecidableEq, Repr

/-- One observable step of the program. -/
inductive Action where
  /-- Text written by `fmt.Printf` or `fmt.Println`. -/
  | print (msg : String)
  /-- The call `os.Exit(code)`. -/
  | exit (code : Nat)
  /-- A plain call `f(...)`: the callee runs in the calling goroutine. -/
  | call (f : Fn)
  /-- A statement `go f(...)`: the callee runs as a new goroutine. -/
  | go (f : Fn)
  /-- A successful `net.Listen` or `net.ListenPacket`. -/
  | listen (network address : String)
  /-- A call `net.Dial(network, address)`. -/
  | dial (network address : String)
  /-- A call `SetDeadline(time.Now().Add(d))` on a socket. -/
  | setDeadline (s : Sock) (d : Nat)
  /-- A call `Write(bytes)` on a socket. -/
  | write (s : Sock) (bytes : List Nat)
  /-- A call `Read` or `ReadFrom` on a socket with a buffer of `cap` bytes. -/
  | read (s : Sock) (cap : Nat)
  /-- A call `WriteTo(bytes, addr)` on a packet socket. -/
  | writeTo (s : Sock) (bytes : List Nat) (addr : String)
  /-- A call `Close()` on a socket. -/
  | close (s : Sock)
  /-- A call `time.Sleep(d)`. -/
  | sleep (d : Nat)
  /-- A call `net.LookupIP(host)`. -/
  | lookup (host : String)
deriving DecidableEq, Repr

/-- The constant `time.Second`, in nanoseconds. -/
def Second : Nat := 1000000000

/-! ## `strings.Split` with a one-character separator -/

/-- Cut a character list at every occurrence of `sep`; a list with `k`
separators gives `k + 1` pieces, so the result is never empty. -/
def splitChars (sep : Char) : List Char → List (List Char)
  | [] => [[]]
  | ch :: rest =>
    if ch = sep then [] :: splitChars sep rest
    else
      match splitChars sep rest with
      | [] => [[ch]]
      | piece :: pieces => (ch :: piece) :: pieces

/-- The call `strings.Split(s, sep)` for a separator of one character. -/
def Split (s : String) (sep : Char) : List String :=
  (splitChars sep s.toList).map String.mk

/-! ## The dispatcher -/

/-- What the operating system answers to a bind: `Listen network address` is
`none` when the bind succeeds and the error text otherwise. -/
structure Binder where
  Listen : String → String → Option String

/-- The function `handleTCP` up to the start of its accept loop: a failed bind
prints and exits with status 8; a successful one prints the progress line and
starts the watcher before accepting. -/
def handleTCP (os : Binder) (fg : ForwardGroup) : List Action :=
  match os.Listen "tcp" fg.Listen with
  | some err => [.print ("Listen tcp port error: " ++ err ++ "\n"), .exit 8]
  | none =>
    [.listen "tcp" fg.Listen,
     .print ("Forwarding TCP: [" ++ fg.Listen ++ "] - [" ++ fg.Forward ++ "]\n"),
     .go .watch]

/-- The function `handleUDP` up to the start of its receive loop: a failed
bind prints and exits with status 8; a successful one prints the progress
line. -/
def handleUDP (os : Binder) (fg : ForwardGroup) : List Action :=
  match os.Listen "udp" fg.Listen with
  | some err => [.print ("Listen udp port error: " ++ err ++ "\n"), .exit 8]
  | none =>
    [.listen "udp" fg.Listen,
     .print ("Forwarding UDP: [" ++ fg.Listen ++ "] - [" ++ fg.Forward ++ "]\n")]

/-- The function `handle`: the rule after the writes of `handle` itself, and
the actions performed.  The body of a started forwarder is listed right after
the action that starts it; for `go handleTCP(fg)` this is one of the possible
schedules. -/
def handle (os : Binder) (fg : ForwardGroup) : ForwardGroup × List Action :=
  match Split fg.Forward ':' with
  | fh :: fp :: _ =>
    let fg1 := { fg with ForwardHost := fh, ForwardPort := fp }
    match Split fg1.Listen ':' with
    | lh :: lp :: _ =>
      let fg2 := { fg1 with ListenHost := lh, ListenPort := lp }
      if fg2.Proto = "tcp" then
        (fg2, .call .handleTCP :: handleTCP os fg2)
      else if fg2.Proto = "udp" then
        (fg2, .call .handleUDP :: handleUDP os fg2)
      else
        (fg2, .go .handleTCP :: handleTCP os fg2 ++ .call .handleUDP :: handleUDP os fg2)
    | _ => (fg1, [.print ("Invalid listen: " ++ fg1.Listen)])
  | _ => (fg, [.print ("Invalid forward: " ++ fg.Forward)])

/-- The rule as `handle` leaves it once both strings have split. -/
def populated (fg : ForwardGroup) (fh fp lh lp : String) : ForwardGroup :=
  { fg with ForwardHost := fh, ForwardPort := fp, ListenHost := lh, ListenPort := lp }

/-- The loop `for i := range fgs { go handle(&fgs[i]) }` of `main`: every rule
is handled on its own element of the slice. -/
def mainRules (os : Binder) (fgs : List ForwardGroup) : List (ForwardGroup × List Action) :=
  fgs.map (handle os)

/-- A forwarder is started: `handleTCP` or `handleUDP` is called or spawned. -/
def startsForwarder (a : Action) : Bool :=
  a = .call .handleTCP || a = .go .handleTCP || a = .call .handleUDP || a = .go .handleUDP

/-- The watcher is started. -/
def startsWatch (a : Action) : Bool :=
  a = .call .watch || a = .go .watch

/-- The process is terminated. -/
def isExit : Action → Bool
  | .exit _ => true
  | _ => false

/-- A rule as the configuration supplies it: `json.Unmarshal` (or the `-l` and
`-f` flags) fills `Listen`, `Forward` and `Proto`; the other fields start
empty. -/
def configRule (listen fwd proto : String) : ForwardGroup :=
  { Listen := listen, ListenPort := "", ListenHost := "",
    Forward := fwd, ForwardPort := "", ForwardHost := "", Proto := proto }

/-- A bind oracle under which every bind succeeds. -/
def allFree : Binder := ⟨fun _ _ => none⟩


/-! ## The watcher -/

/-- What the resolver answers.  `ParseIP s` tells whether `net.ParseIP(s)` is
non-nil.  `LookupIP i host` is the result of `net.LookupIP(host)` when it is
called in iteration `i` of the watch loop: the error text, or the textual form
(`IP.String()`) of each address returned, in order. -/
structure Resolver where
  ParseIP : String → Bool
  LookupIP : Nat → String → Except String (List String)

/-- One pass through the body of the loop of `watch`, as iteration `i`.  The
result is `none` when `ips[0]` is evaluated on an empty slice (a run-time
panic). -/
def watchIter (r : Resolver) (i : Nat) (fg : ForwardGroup) :
    Option (ForwardGroup × List Action) :=
  if r.ParseIP fg.ForwardHost then
    some (fg, [.sleep (60 * Second)])
  else
    match r.LookupIP i fg.ForwardHost with
    | .error err =>
      some (fg, [.lookup fg.ForwardHost, .print ("Dns resolve error: " ++ err ++ "\n"),
        .sleep (5 * Second)])
    | .ok [] => none
    | .ok (ip :: _) =>
      some ({ fg with ForwardHost := ip }, [.lookup fg.ForwardHost, .sleep (1 * Second)])

/-- The first `n` iterations of the loop of `watch`, numbered from `i`. -/
def watch (r : Resolver) : Nat → Nat → ForwardGroup → Option (ForwardGroup × List Action)
  | 0, _, fg => some (fg, [])
  | n + 1, i, fg =>
    match watchIter r i fg with
    | none => none
    | some (fg1, acts) =>
      match watch r n (i + 1) fg1 with
      | none => none
      | some (fg2, more) => some (fg2, acts ++ more)

/-! ## The TCP forwarder -/

/-- The function `handleConnection` for a client at `peer`; `dialErr` is the
error of `net.Dial`, if any. -/
def handleConnection (peer forwardHost forwardPort : String) (dialErr : Option String) :
    List Action :=
  let forwardString := forwardHost ++ ":" ++ forwardPort
  [.print ("TCP Connection: [" ++ peer ++ "]-[" ++ forwardString ++ "]\n"),
   .dial "tcp" forwardString] ++
  match dialErr with
  | some err => [.close .c, .print ("Connect to remote error: " ++ err ++ "\n")]
  | none => [.go .forward]

/-- One pass through the accept loop of `handleTCP`: `accepted` is the error of
`ln.Accept()` or the address of the client.  The connection task receives the
value of `fg.ForwardHost` at this moment. -/
def handleTCPIter (fg : ForwardGroup) (accepted : Except String String)
    (dialErr : Option String) : List Action :=
  match accepted with
  | .error err => [.print ("Accept error: " ++ err ++ "\n")]
  | .ok peer =>
    .go .handleConnection :: handleConnection peer fg.ForwardHost fg.ForwardPort dialErr

/-! ## The relay -/

/-- When the two copies of one relay end, in nanoseconds since the start of
`forward` (`none`: the copy does not end), and which ready case `select` takes
when the channel and the timer are ready at the same instant. -/
structure RelayTiming where
  copyToSrc : Option Nat
  copyToDest : Option Nat
  preferDone : Bool

/-- The instant at which `wg.Wait()` returns: when both copies have ended. -/
def bothDone (tm : RelayTiming) : Option Nat :=
  match tm.copyToSrc, tm.copyToDest with
  | some a, some b => some (max a b)
  | _, _ => none

/-- The function `forward`: the instant at which it returns, and its actions.
The deferred calls run in reverse order, `dest.Close()` then `src.Close()`. -/
def forward (tm : RelayTiming) : Nat × List Action :=
  let timeout := 1200 * Second
  let spawned : List Action := [.go .copyToSrc, .go .copyToDest, .go .waiter]
  let deferred : List Action := [.close .dest, .close .src]
  match bothDone tm with
  | some t =>
    if t < timeout ∨ (t = timeout ∧ tm.preferDone = true) then
      (t, spawned ++ [.print "IOCopy exit\n"] ++ deferred)
    else
      (timeout, spawned ++ [.print "IOCopy timeout\n"] ++ deferred)
  | none => (timeout, spawned ++ [.print "IOCopy timeout\n"] ++ deferred)

/-! ## The UDP forwarder -/

/-- The call `make([]byte, n)`: `n` zero bytes. -/
def makeBytes (n : Nat) : List Nat := List.replicate n 0

/-- A `Read` or `ReadFrom` into the buffer `p` when the datagram `data`
arrives: the count returned and the buffer afterwards.  The datagram
overwrites the front of the buffer, the rest of the buffer is untouched, and
what does not fit is dropped. -/
def readInto (p data : List Nat) : Nat × List Nat :=
  (min data.length p.length, data.take p.length ++ p.drop data.length)

/-- What `ln.ReadFrom(p)` gives in one pass of the receive loop. -/
inductive Received where
  /-- An error whose `Timeout()` is true: the one-second deadline passed. -/
  | timeout
  /-- Any other error. -/
  | failed (err : String)
  /-- A datagram and the address of its sender. -/
  | datagram (data : List Nat) (sender : String)

/-- The arguments of one `go handleConnectionUDP(ln, conn, p, host, port)`. -/
structure UDPTask where
  c : String
  p : List Nat
  forwardHost : String
  forwardPort : String
deriving DecidableEq, Repr

/-- One pass through the receive loop of `handleUDP`: its actions and the
task it spawns, if any.  The count returned by `ReadFrom` is discarded and the
whole buffer `p` is handed to the task. -/
def handleUDPIter (fg : ForwardGroup) (rx : Received) : List Action × Option UDPTask :=
  let p := makeBytes 1024
  let head : List Action := [.setDeadline .ln (1 * Second), .read .ln p.length]
  match rx with
  | .timeout => (head, none)
  | .failed err => (head ++ [.print ("Accept error: " ++ err ++ "\n")], none)
  | .datagram data sender =>
    (head ++ [.go .handleConnectionUDP],
      some { c := sender, p := (readInto p data).2,
             forwardHost := fg.ForwardHost, forwardPort := fg.ForwardPort })

/-- What the upstream side does in one UDP task: the error of `net.Dial`, the
text of `remote.RemoteAddr()`, whether `remote.Write` fails, and the reply
datagram that `remote.Read` receives (`none`: an error, such as the 15-second
deadline passing). -/
structure Upstream where
  dialErr : Option String
  remoteAddr : String
  writeFails : Bool
  reply : Option (List Nat)

/-- The function `handleConnectionUDP`.  The count returned by `remote.Read` is
discarded and the whole buffer `pr` is written back. -/
def handleConnectionUDP (up : Upstream) (t : UDPTask) : List Action :=
  let forwardString := t.forwardHost ++ ":" ++ t.forwardPort
  let head : List Action :=
    [.print ("UDP Packet: [" ++ t.c ++ "]-[" ++ forwardString ++ "]\n"),
     .dial "udp" forwardString]
  match up.dialErr with
  | some err => head ++ [.print ("Connect to remote error: " ++ err ++ "\n")]
  | none =>
    let sent : List Action :=
      head ++ [.setDeadline .remote (15 * Second), .write .remote t.p]
    if up.writeFails then
      sent ++ [.print ("Write to remote error: " ++ up.remoteAddr ++ "\n")]
    else
      let pr := makeBytes 1024
      match up.reply with
      | none =>
        sent ++ [.read .remote pr.length,
          .print ("Read from remote error: " ++ up.remoteAddr ++ "\n")]
      | some data =>
        sent ++ [.read .remote pr.length, .writeTo .ln (readInto pr data).2 t.c]

/-- A socket is closed. -/
def isClose : Action → Bool
  | .close _ => true
  | _ => false

/-- Bytes are written back to a sender through the listening socket. -/
def isWriteTo : Action → Bool
  | .writeTo _ _ _ => true
  | _ => false

/-- Bytes are written to a connected socket. -/
def isWrite : Action → Bool
  | .write _ _ => true
  | _ => false

/-! ## A concrete environment for the examples -/

/-- One field of a dotted-decimal address: one to three digits, no leading
zero, value at most 255. -/
def octet (cs : List Char) : Bool :=
  cs ≠ [] && cs.all Char.isDigit && decide (cs.length ≤ 3) &&
    (decide (cs.length = 1) || cs.head? ≠ some '0') &&
    decide (cs.foldl (fun n ch => 10 * n + (ch.toNat - 48)) 0 ≤ 255)

/-- Recognises the dotted-decimal IPv4 literals; on the colon-free strings of
the examples this is the answer of `net.ParseIP(s) != nil`. -/
def dottedDecimal (s : String) : Bool :=
  match splitChars '.' s.toList with
  | [a, b, c, d] => octet a && octet b && octet c && octet d
  | _ => false

/-- The rule listen "127.0.0.1:9000", forward "example.com:80", proto "tcp" as
`handle` leaves it. -/
def hostRule : ForwardGroup :=
  { Listen := "127.0.0.1:9000", ListenPort := "9000", ListenHost := "127.0.0.1",
    Forward := "example.com:80", ForwardPort := "80", ForwardHost := "example.com",
    Proto := "tcp" }

/-- The rule listen "127.0.0.1:9000", forward "10.0.0.1:80", proto "tcp" as
`handle` leaves it. -/
def numericRule : ForwardGroup :=
  { Listen := "127.0.0.1:9000", ListenPort := "9000", ListenHost := "127.0.0.1",
    Forward := "10.0.0.1:80", ForwardPort := "80", ForwardHost := "10.0.0.1",
    Proto := "tcp" }

/-- A resolver whose answer for "example.com" changes: 10.0.0.1 in iteration 0
of the watch loop, 10.0.0.2 in every later iteration. -/
def movingDNS : Resolver where
  ParseIP := dottedDecimal
  LookupIP := fun i host =>
    if host = "example.com" then
      (if i = 0 then .ok ["10.0.0.1"] else .ok ["10.0.0.2"])
    else .error "no such host"

/-! ## Facts about `Split` -/

theorem splitChars_ne_nil (sep : Char) (l : List Char) : splitChars sep l ≠ [] := by
  cases l with
  | nil => simp [splitChars]
  | cons ch rest =>
    unfold splitChars
    split
    · simp
    · split <;> simp

theorem splitChars_of_not_mem (sep : Char) (l : List Char) (h : sep ∉ l) :
    splitChars sep l = [l] := by
  induction l with
  | nil => rfl
  | cons ch rest ih =>
    have hne : ch ≠ sep := fun e => h (by simp [e])
    have hrest : sep ∉ rest := fun m => h (List.mem_cons_of_mem _ m)
    simp [splitChars, hne, ih hrest]

theorem splitChars_append_sep (sep : Char) (a b : List Char) (h : sep ∉ a) :
    splitChars sep (a ++ sep :: b) = a :: splitChars sep b := by
  induction a with
  | nil => simp [splitChars]
  | cons ch rest ih =>
    have hne : ch ≠ sep := fun e => h (by simp [e])
    have hrest : sep ∉ rest := fun m => h (List.mem_cons_of_mem _ m)
    simp [splitChars, hne, ih hrest]

theorem splitChars_of_mem (sep : Char) (l : List Char) (h : sep ∈ l) :
    ∃ a b rest, splitChars sep l = a :: b :: rest := by
  induction l with
  | nil => simp at h
  | cons ch rest ih =>
    by_cases hc : ch = sep
    · obtain ⟨x, xs, hx⟩ := List.exists_cons_of_ne_nil (splitChars_ne_nil sep rest)
      exact ⟨[], x, xs, by simp [splitChars, hc, hx]⟩
    · have hm : sep ∈ rest := by
        rcases List.mem_cons.mp h with e | m
        · exact absurd e.symm hc
        · exact m
      obtain ⟨a, b, tl, hab⟩ := ih hm
      exact ⟨ch :: a, b, tl, by simp [splitChars, hc, hab]⟩

theorem Split_of_not_mem (s : String) (sep : Char) (h : sep ∉ s.toList) :
    Split s sep = [s] := by
  unfold Split
  rw [splitChars_of_not_mem sep s.toList h]
  rfl

theorem Split_of_mem (s : String) (sep : Char) (h : sep ∈ s.toList) :
    ∃ a b rest, Split s sep = a :: b :: rest := by
  obtain ⟨a, b, rest, hab⟩ := splitChars_of_mem sep s.toList h
  refine ⟨String.mk a, String.mk b, rest.map String.mk, ?_⟩
  unfold Split
  rw [hab]
  rfl

theorem Split_host_port (h p : String) (hh : ':' ∉ h.toList) (hp : ':' ∉ p.toList) :
    Split (h ++ ":" ++ p) ':' = [h, p] := by
  have e : (h ++ ":" ++ p).toList = h.toList ++ ':' :: p.toList := by
    simp [String.toList]
  unfold Split
  rw [e, splitChars_append_sep ':' _ _ hh, splitChars_of_not_mem ':' _ hp]
  rfl

/-! ## Facts about `handle` -/

theorem handleTCP_no_forwarder (os : Binder) (fg : ForwardGroup) :
    (handleTCP os fg).filter startsForwarder = [] := by
  unfold handleTCP
  cases os.Listen "tcp" fg.Listen <;> simp [startsForwarder]

theorem handleUDP_no_forwarder (os : Binder) (fg : ForwardGroup) :
    (handleUDP os fg).filter startsForwarder = [] := by
  unfold handleUDP
  cases os.Listen "udp" fg.Listen <;> simp [startsForwarder]

theorem handleUDP_no_watch (os : Binder) (fg : ForwardGroup) :
    ∀ a ∈ handleUDP os fg, startsWatch a = false := by
  unfold handleUDP
  cases os.Listen "udp" fg.Listen <;> simp [startsWatch]

theorem handle_of_split (os : Binder) (fg : ForwardGroup) (fh fp lh lp : String)
    (ft lt : List String) (hf : Split fg.Forward ':' = fh :: fp :: ft)
    (hl : Split fg.Listen ':' = lh :: lp :: lt) :
    handle os fg =
      if fg.Proto = "tcp" then
        (populated fg fh fp lh lp, .call .handleTCP :: handleTCP os (populated fg fh fp lh lp))
      else if fg.Proto = "udp" then
        (populated fg fh fp lh lp, .call .handleUDP :: handleUDP os (populated fg fh fp lh lp))
      else
        (populated fg fh fp lh lp,
          .go .handleTCP :: handleTCP os (populated fg fh fp lh lp)
            ++ .call .handleUDP :: handleUDP os (populated fg fh fp lh lp)) := by
  simp only [handle, hf, hl, populated]

theorem handle_reject_forward (os : Binder) (fg : ForwardGroup)
    (h : ':' ∉ fg.Forward.toList) :
    handle os fg = (fg, [.print ("Invalid forward: " ++ fg.Forward)]) := by
  simp only [handle, Split_of_not_mem _ _ h]

theorem handle_reject_listen (os : Binder) (fg : ForwardGroup) (fh fp : String)
    (ft : List String) (hf : Split fg.Forward ':' = fh :: fp :: ft)
    (h : ':' ∉ fg.Listen.toList) :
    handle os fg = ({ fg with ForwardHost := fh, ForwardPort := fp },
      [.print ("Invalid listen: " ++ fg.Listen)]) := by
  simp only [handle, hf, Split_of_not_mem _ _ h]

theorem handle_rejected_actions (os : Binder) (fg : ForwardGroup)
    (h : ':' ∉ fg.Forward.toList ∨ ':' ∉ fg.Listen.toList) :
    (handle os fg).2 = [.print ("Invalid forward: " ++ fg.Forward)] ∨
      (handle os fg).2 = [.print ("Invalid listen: " ++ fg.Listen)] := by
  by_cases hf : ':' ∈ fg.Forward.toList
  · have hl : ':' ∉ fg.Listen.toList := h.resolve_left (fun n => n hf)
    obtain ⟨fh, fp, ft, e⟩ := Split_of_mem _ _ hf
    exact Or.inr (by rw [handle_reject_listen os fg fh fp ft e hl])
  · exact Or.inl (by rw [handle_reject_forward os fg hf])

theorem handle_accepted_starts (os : Binder) (fg : ForwardGroup)
    (hf : ':' ∈ fg.Forward.toList) (hl : ':' ∈ fg.Listen.toList) :
    (handle os fg).2.filter startsForwarder =
      if fg.Proto = "tcp" then [.call .handleTCP]
      else if fg.Proto = "udp" then [.call .handleUDP]
      else [.go .handleTCP, .call .handleUDP] := by
  obtain ⟨fh, fp, ft, ef⟩ := Split_of_mem _ _ hf
  obtain ⟨lh, lp, lt, el⟩ := Split_of_mem _ _ hl
  rw [handle_of_split os fg fh fp lh lp ft lt ef el]
  by_cases h1 : fg.Proto = "tcp"
  · simp [h1, List.filter_cons, handleTCP_no_forwarder, startsForwarder]
  · by_cases h2 : fg.Proto = "udp"
    · simp [h1, h2, List.filter_cons, handleUDP_no_forwarder, startsForwarder]
    · simp [h1, h2, List.filter_cons, List.filter_append, handleTCP_no_forwarder,
        handleUDP_no_forwarder, startsForwarder]

theorem handle_tcp_starts_watch (fg : ForwardGroup) (hf : ':' ∈ fg.Forward.toList)
    (hl : ':' ∈ fg.Listen.toList) (hp : fg.Proto = "tcp") :
    (handle allFree fg).2.any startsWatch = true := by
  obtain ⟨fh, fp, ft, ef⟩ := Split_of_mem _ _ hf
  obtain ⟨lh, lp, lt, el⟩ := Split_of_mem _ _ hl
  rw [handle_of_split allFree fg fh fp lh lp ft lt ef el]
  simp [hp, handleTCP, allFree, startsWatch]

/-! ## Claims about the dispatcher -/

/-- C3 (code defect): for a rule whose proto is "udp", `handle` starts no
watcher: `go watch(fg)` is a statement of `handleTCP` only, and the "udp" case
runs `handleUDP` alone.  This holds for every bind outcome and every rule. -/
theorem handle_udp_starts_no_watch (os : Binder) (fg : ForwardGroup)
    (hp : fg.Proto = "udp") :
    (handle os fg).2.any startsWatch = false := by
  have hne : ¬ fg.Proto = "tcp" := by rw [hp]; decide
  rw [List.any_eq_false]
  intro a ha
  simp only [Bool.not_eq_true]
  by_cases hf : ':' ∈ fg.Forward.toList
  · by_cases hl : ':' ∈ fg.Listen.toList
    · obtain ⟨fh, fp, ft, ef⟩ := Split_of_mem _ _ hf
      obtain ⟨lh, lp, lt, el⟩ := Split_of_mem _ _ hl
      rw [handle_of_split os fg fh fp lh lp ft lt ef el, if_neg hne, if_pos hp] at ha
      simp only [List.mem_cons] at ha
      rcases ha with rfl | m
      · rfl
      · exact handleUDP_no_watch os _ a m
    · rcases handle_rejected_actions os fg (Or.inr hl) with e | e <;>
        (rw [e] at ha; simp only [List.mem_singleton] at ha; rw [ha]; rfl)
  · rcases handle_rejected_actions os fg (Or.inl hf) with e | e <;>
      (rw [e] at ha; simp only [List.mem_singleton] at ha; rw [ha]; rfl)

/-- C3, at a concrete rule: a valid "udp" rule with a free port starts the UDP
forwarder and no watcher. -/
theorem handle_udp_starts_no_watch_witness :
    (handle allFree (configRule "127.0.0.1:9000" "example.com:53" "udp")).2.any startsWatch
      = false :=
  handle_udp_starts_no_watch allFree (configRule "127.0.0.1:9000" "example.com:53" "udp") rfl

/-- C4 (as stated, false): a listen string with an empty host, a forward string
with an empty port, and a forward string with two colons all pass the check of
`handle`: the listen address is bound, a forwarder is started, and host and
port are the first two parts of the split. -/
theorem handle_accepts_empty_and_extra_parts :
    (Split ":9000" ':' = ["", "9000"] ∧
      handle allFree (configRule ":9000" "example.com:80" "tcp") =
        ({ Listen := ":9000", ListenPort := "9000", ListenHost := "",
           Forward := "example.com:80", ForwardPort := "80", ForwardHost := "example.com",
           Proto := "tcp" },
         [.call .handleTCP, .listen "tcp" ":9000",
          .print "Forwarding TCP: [:9000] - [example.com:80]\n", .go .watch])) ∧
    (Split "host:" ':' = ["host", ""] ∧
      handle allFree (configRule "127.0.0.1:9000" "host:" "udp") =
        ({ Listen := "127.0.0.1:9000", ListenPort := "9000", ListenHost := "127.0.0.1",
           Forward := "host:", ForwardPort := "", ForwardHost := "host", Proto := "udp" },
         [.call .handleUDP, .listen "udp" "127.0.0.1:9000",
          .print "Forwarding UDP: [127.0.0.1:9000] - [host:]\n"])) ∧
    (Split "a:b:c" ':' = ["a", "b", "c"] ∧
      handle allFree (configRule "127.0.0.1:9000" "a:b:c" "tcp") =
        ({ Listen := "127.0.0.1:9000", ListenPort := "9000", ListenHost := "127.0.0.1",
           Forward := "a:b:c", ForwardPort := "b", ForwardHost := "a", Proto := "tcp" },
         [.call .handleTCP, .listen "tcp" "127.0.0.1:9000",
          .print "Forwarding TCP: [127.0.0.1:9000] - [a:b:c]\n", .go .watch])) := by
  refine ⟨⟨by decide, ?_⟩, ⟨by decide, ?_⟩, ⟨by decide, ?_⟩⟩ <;> decide

/-- C4 (amended): `handle` starts no TCP or UDP forwarder exactly when the
forward string or the listen string contains no colon, that is when
`strings.Split` gives fewer than two parts; a rule rejected in this way only
prints one "Invalid" line.  For every other rule, whatever the parts contain
and however many there are, `handle` sets ForwardHost, ForwardPort, ListenHost
and ListenPort to the first two parts of the forward and of the listen string
and leaves Listen, Forward and Proto as they were. -/
theorem handle_rejects_iff_no_colon (os : Binder) (fg : ForwardGroup) :
    ((handle os fg).2.filter startsForwarder = [] ↔
        (':' ∉ fg.Forward.toList ∨ ':' ∉ fg.Listen.toList)) ∧
      ((':' ∉ fg.Forward.toList ∨ ':' ∉ fg.Listen.toList) →
        (handle os fg).2 = [.print ("Invalid forward: " ++ fg.Forward)] ∨
          (handle os fg).2 = [.print ("Invalid listen: " ++ fg.Listen)]) ∧
      ((':' ∈ fg.Forward.toList ∧ ':' ∈ fg.Listen.toList) →
        (handle os fg).1 =
          { Listen := fg.Listen,
            ListenPort := (Split fg.Listen ':').getD 1 "",
            ListenHost := (Split fg.Listen ':').getD 0 "",
            Forward := fg.Forward,
            ForwardPort := (Split fg.Forward ':').getD 1 "",
            ForwardHost := (Split fg.Forward ':').getD 0 "",
            Proto := fg.Proto }) := by
  refine ⟨⟨fun h => ?_, fun h => ?_⟩, handle_rejected_actions os fg, ?_⟩
  · by_contra hc
    have hf : ':' ∈ fg.Forward.toList := by
      by_contra n; exact hc (Or.inl n)
    have hl : ':' ∈ fg.Listen.toList := by
      by_contra n; exact hc (Or.inr n)
    rw [handle_accepted_starts os fg hf hl] at h
    split at h
    · simp at h
    · split at h <;> simp at h
  · rcases handle_rejected_actions os fg h with e | e <;>
      (rw [e]; rfl)
  · rintro ⟨hf, hl⟩
    obtain ⟨fh, fp, ft, ef⟩ := Split_of_mem _ _ hf
    obtain ⟨lh, lp, lt, el⟩ := Split_of_mem _ _ hl
    rw [handle_of_split os fg fh fp lh lp ft lt ef el, ef, el]
    by_cases h1 : fg.Proto = "tcp"
    · rw [if_pos h1]; rfl
    · rw [if_neg h1]
      by_cases h2 : fg.Proto = "udp"
      · rw [if_pos h2]; rfl
      · rw [if_neg h2]; rfl

/-- C4 (amended), at a concrete rule: listen ":9000" passes the check with an
empty ListenHost, and forward "a:b:c" passes it with ForwardHost "a" and
ForwardPort "b". -/
theorem handle_rejects_iff_no_colon_witness :
    (handle allFree (configRule ":9000" "a:b:c" "udp")).1 =
      { Listen := ":9000", ListenPort := "9000", ListenHost := "",
        Forward := "a:b:c", ForwardPort := "b", ForwardHost := "a", Proto := "udp" } :=
  (handle_rejects_iff_no_colon allFree (configRule ":9000" "a:b:c" "udp")).2.2
    ⟨by decide, by decide⟩

/-- C5: when listen is `lh:lp` and forward is `fh:fp`, with the four parts
non-empty and free of colons, `handle` passes validation (it reaches the
protocol switch and starts a forwarder), sets ListenHost, ListenPort,
ForwardHost and ForwardPort to `lh`, `lp`, `fh` and `fp`, and leaves Listen,
Forward and Proto as they were. -/
theorem handle_populates_fields (os : Binder) (fg : ForwardGroup) (lh lp fh fp : String)
    (hL : fg.Listen = lh ++ ":" ++ lp) (hF : fg.Forward = fh ++ ":" ++ fp)
    (_hlh : lh ≠ "") (_hlp : lp ≠ "") (_hfh : fh ≠ "") (_hfp : fp ≠ "")
    (clh : ':' ∉ lh.toList) (clp : ':' ∉ lp.toList)
    (cfh : ':' ∉ fh.toList) (cfp : ':' ∉ fp.toList) :
    (handle os fg).1 =
        { fg with ListenHost := lh, ListenPort := lp, ForwardHost := fh, ForwardPort := fp } ∧
      (handle os fg).1.Listen = fg.Listen ∧
      (handle os fg).1.Forward = fg.Forward ∧
      (handle os fg).1.Proto = fg.Proto ∧
      (handle os fg).2.any startsForwarder = true := by
  have ef : Split fg.Forward ':' = [fh, fp] := by rw [hF]; exact Split_host_port fh fp cfh cfp
  have el : Split fg.Listen ':' = [lh, lp] := by rw [hL]; exact Split_host_port lh lp clh clp
  rw [handle_of_split os fg fh fp lh lp [] [] ef el]
  by_cases h1 : fg.Proto = "tcp"
  · rw [if_pos h1]
    exact ⟨rfl, rfl, rfl, rfl, by simp [startsForwarder]⟩
  · rw [if_neg h1]
    by_cases h2 : fg.Proto = "udp"
    · rw [if_pos h2]
      exact ⟨rfl, rfl, rfl, rfl, by simp [startsForwarder]⟩
    · rw [if_neg h2]
      exact ⟨rfl, rfl, rfl, rfl, by simp [startsForwarder]⟩

/-- C5, at the rule of the specification: listen "127.0.0.1:9000" gives
ListenHost "127.0.0.1" and ListenPort "9000", forward "example.com:80" gives
ForwardHost "example.com" and ForwardPort "80". -/
theorem handle_populates_fields_witness :
    (handle allFree (configRule "127.0.0.1:9000" "example.com:80" "tcp")).1 =
      { Listen := "127.0.0.1:9000", ListenPort := "9000", ListenHost := "127.0.0.1",
        Forward := "example.com:80", ForwardPort := "80", ForwardHost := "example.com",
        Proto := "tcp" } :=
  (handle_populates_fields allFree (configRule "127.0.0.1:9000" "example.com:80" "tcp")
    "127.0.0.1" "9000" "example.com" "80" (by decide) (by decide) (by decide) (by decide)
    (by decide) (by decide) (by decide) (by decide) (by decide) (by decide)).1

/-- C6: a rule whose forward or listen string has no colon fails validation
and is skipped: `handle` only prints one "Invalid" line, so it starts no
forwarder and no watcher and does not exit the process; and in the loop of
`main` the outcomes of the other rules are those of the input without the
invalid rule. -/
theorem handle_skips_rule_without_colon (os : Binder) (fg : ForwardGroup)
    (h : ':' ∉ fg.Forward.toList ∨ ':' ∉ fg.Listen.toList) :
    ((handle os fg).2 = [.print ("Invalid forward: " ++ fg.Forward)] ∨
        (handle os fg).2 = [.print ("Invalid listen: " ++ fg.Listen)]) ∧
      (handle os fg).2.any startsForwarder = false ∧
      (handle os fg).2.any startsWatch = false ∧
      (handle os fg).2.any isExit = false ∧
      ∀ pre post : List ForwardGroup,
        (mainRules os (pre ++ fg :: post)).eraseIdx pre.length = mainRules os (pre ++ post) := by
  refine ⟨handle_rejected_actions os fg h, ?_, ?_, ?_, ?_⟩
  · rcases handle_rejected_actions os fg h with e | e <;> (rw [e]; rfl)
  · rcases handle_rejected_actions os fg h with e | e <;> (rw [e]; rfl)
  · rcases handle_rejected_actions os fg h with e | e <;> (rw [e]; rfl)
  · intro pre post
    have hlen : (List.map (handle os) pre).length = pre.length := List.length_map _ _
    simp only [mainRules, List.map_append, List.map_cons]
    rw [← hlen, List.eraseIdx_append_of_length_le (Nat.le_refl _)]
    simp

/-- C6, at a concrete input: between two valid rules, a rule whose listen
string "9000" has no colon is skipped, and the two siblings come out as in the
input without it. -/
theorem handle_skips_rule_without_colon_witness :
    (handle allFree (configRule "9000" "example.com:80" "")).2
        = [.print "Invalid listen: 9000"] ∧
      (mainRules allFree
          ([configRule "127.0.0.1:8001" "127.0.0.1:8002" "tcp"] ++
            configRule "9000" "example.com:80" "" ::
              [configRule "127.0.0.1:9001" "example.com:53" "udp"])).eraseIdx 1
        = mainRules allFree
          ([configRule "127.0.0.1:8001" "127.0.0.1:8002" "tcp"] ++
            [configRule "127.0.0.1:9001" "example.com:53" "udp"]) :=
  have w := handle_skips_rule_without_colon allFree (configRule "9000" "example.com:80" "")
    (Or.inr (by decide))
  ⟨w.1.resolve_left (by rw [handle_reject_listen allFree _ "example.com" "80" []
      (by decide) (by decide)]; decide),
    w.2.2.2.2 [configRule "127.0.0.1:8001" "127.0.0.1:8002" "tcp"]
      [configRule "127.0.0.1:9001" "example.com:53" "udp"]⟩

/-- C7: for a rule that passes validation (forward and listen both contain a
colon), the forwarders `handle` starts follow proto: only the TCP forwarder for
"tcp", only the UDP forwarder for "udp", and both (TCP as a goroutine, UDP in
place) for the empty proto. -/
theorem handle_forwarders_by_proto (os : Binder) (fg : ForwardGroup)
    (hf : ':' ∈ fg.Forward.toList) (hl : ':' ∈ fg.Listen.toList) :
    (fg.Proto = "tcp" → (handle os fg).2.filter startsForwarder = [.call .handleTCP]) ∧
      (fg.Proto = "udp" → (handle os fg).2.filter startsForwarder = [.call .handleUDP]) ∧
      (fg.Proto = "" →
        (handle os fg).2.filter startsForwarder = [.go .handleTCP, .call .handleUDP]) := by
  rw [handle_accepted_starts os fg hf hl]
  refine ⟨fun h => ?_, fun h => ?_, fun h => ?_⟩ <;> rw [h] <;> rfl

/-- C7, at a concrete rule with the proto left out: both forwarders start. -/
theorem handle_forwarders_by_proto_witness :
    (handle allFree (configRule "127.0.0.1:9000" "example.com:80" "")).2.filter startsForwarder
      = [.go .handleTCP, .call .handleUDP] :=
  (handle_forwarders_by_proto allFree (configRule "127.0.0.1:9000" "example.com:80" "")
    (by decide) (by decide)).2.2 rfl

/-! ## Facts about `watch` -/

theorem watchIter_of_numeric (r : Resolver) (i : Nat) (fg : ForwardGroup)
    (h : r.ParseIP fg.ForwardHost = true) :
    watchIter r i fg = some (fg, [.sleep (60 * Second)]) := by
  simp [watchIter, h]

theorem watch_of_numeric (r : Resolver) (fg : ForwardGroup)
    (h : r.ParseIP fg.ForwardHost = true) (n i : Nat) :
    watch r n i fg = some (fg, List.replicate n (.sleep (60 * Second))) := by
  induction n generalizing i with
  | zero => rfl
  | succ n ih =>
    simp only [watch, watchIter_of_numeric r i fg h, ih (i + 1)]
    rfl

theorem watchIter_of_resolved (r : Resolver) (i : Nat) (fg : ForwardGroup) (ip : String)
    (rest : List String) (hnum : r.ParseIP fg.ForwardHost = false)
    (hlook : r.LookupIP i fg.ForwardHost = .ok (ip :: rest)) :
    watchIter r i fg =
      some ({ fg with ForwardHost := ip }, [.lookup fg.ForwardHost, .sleep (1 * Second)]) := by
  simp [watchIter, hnum, hlook]

/-! ## Claims about the watcher -/

/-- C8: when the target host of a rule is a numeric address, each iteration of
`watch` returns the rule as it was and does nothing but sleep 60 seconds (no
lookup, no write), and so do any number `n` of iterations in a row. -/
theorem watch_numeric_never_changes (r : Resolver) (fg : ForwardGroup)
    (h : r.ParseIP fg.ForwardHost = true) (n i : Nat) :
    watchIter r i fg = some (fg, [.sleep (60 * Second)]) ∧
      watch r n i fg = some (fg, List.replicate n (.sleep (60 * Second))) :=
  ⟨watchIter_of_numeric r i fg h, watch_of_numeric r fg h n i⟩

/-- C8, at a rule forwarding to 10.0.0.1: three iterations leave the rule as it
was and sleep 60 seconds each. -/
theorem watch_numeric_never_changes_witness :
    watch movingDNS 3 0 numericRule =
      some (numericRule, [.sleep 60000000000, .sleep 60000000000, .sleep 60000000000]) :=
  (watch_numeric_never_changes movingDNS numericRule (by decide) 3 0).2

/-- C1 (code defect): once a lookup of the target hostname has succeeded with
first address `a1`, `watch` has overwritten `fg.ForwardHost` with `a1`; from
then on the field is numeric, every later iteration takes the 60-second branch
and no lookup is made again.  After any number `n` of further iterations the
field still equals `a1`, whatever the resolver would answer by then. -/
theorem watch_keeps_first_resolution (r : Resolver) (fg : ForwardGroup) (a1 : String)
    (rest : List String) (i n : Nat) (hnum : r.ParseIP fg.ForwardHost = false)
    (hlook : r.LookupIP i fg.ForwardHost = .ok (a1 :: rest))
    (hip : r.ParseIP a1 = true) :
    watch r (n + 1) i fg =
      some ({ fg with ForwardHost := a1 },
        .lookup fg.ForwardHost :: .sleep (1 * Second) ::
          List.replicate n (.sleep (60 * Second))) := by
  have hrest := watch_of_numeric r { fg with ForwardHost := a1 } hip n (i + 1)
  simp only [watch, watchIter_of_resolved r i fg a1 rest hnum hlook, hrest]
  rfl

/-- C1, at a concrete input: the resolver answers 10.0.0.1 for "example.com" in
iteration 0 and 10.0.0.2 in iteration 1; after both iterations the field is
still "10.0.0.1", the only lookup is the first one, and the next accepted
connection is dialled to 10.0.0.1:80. -/
theorem watch_keeps_first_resolution_witness :
    movingDNS.LookupIP 0 "example.com" = .ok ["10.0.0.1"] ∧
      movingDNS.LookupIP 1 "example.com" = .ok ["10.0.0.2"] ∧
      watch movingDNS 2 0 hostRule =
        some ({ hostRule with ForwardHost := "10.0.0.1" },
          [.lookup "example.com", .sleep 1000000000, .sleep 60000000000]) ∧
      handleTCPIter { hostRule with ForwardHost := "10.0.0.1" } (.ok "192.0.2.7:5000") none =
        [.go .handleConnection,
         .print "TCP Connection: [192.0.2.7:5000]-[10.0.0.1:80]\n",
         .dial "tcp" "10.0.0.1:80", .go .forward] :=
  ⟨rfl, rfl,
    watch_keeps_first_resolution movingDNS hostRule "10.0.0.1" [] 0 1 (by decide) rfl
      (by decide),
    by decide⟩

/-! ## Facts about the UDP forwarder -/

theorem hostRule_from_handle :
    (handle allFree (configRule "127.0.0.1:9000" "example.com:80" "tcp")).1 = hostRule := by
  decide

theorem readInto_short (n : Nat) (data : List Nat) (h : data.length ≤ n) :
    (readInto (makeBytes n) data).2 = data ++ List.replicate (n - data.length) 0 := by
  simp [readInto, makeBytes, List.take_of_length_le h]

/-! ## Claims about the UDP forwarder -/

/-- C2 (code defect): for a datagram `data` of at most 1024 bytes and a reply of
at most 1024 bytes, the one write to the upstream socket carries `data` followed
by zero bytes up to 1024 bytes, and the one write back to the sender carries the
reply followed by zero bytes up to 1024 bytes: both read counts are discarded
and the whole buffers are written. -/
theorem udp_relay_writes_whole_buffer (fg : ForwardGroup) (up : Upstream)
    (data reply : List Nat) (sender : String)
    (hn : data.length ≤ 1024) (hm : reply.length ≤ 1024)
    (hd : up.dialErr = none) (hw : up.writeFails = false) (hr : up.reply = some reply) :
    (handleUDPIter fg (.datagram data sender)).2.map
        (fun t => (handleConnectionUDP up t).filter isWrite) =
      some [.write .remote (data ++ List.replicate (1024 - data.length) 0)] ∧
    (handleUDPIter fg (.datagram data sender)).2.map
        (fun t => (handleConnectionUDP up t).filter isWriteTo) =
      some [.writeTo .ln (reply ++ List.replicate (1024 - reply.length) 0) sender] := by
  simp [handleUDPIter, handleConnectionUDP, hd, hw, hr, readInto_short 1024 data hn,
    readInto_short 1024 reply hm, isWrite, isWriteTo, List.filter_cons]

/-- C2, at a concrete input: the 4-byte datagram "ping" reaches the upstream as
1024 bytes (the payload and 1020 zero bytes), and the 4-byte reply "pong"
reaches the sender as 1024 bytes. -/
theorem udp_relay_writes_whole_buffer_witness :
    (handleUDPIter hostRule (.datagram [112, 105, 110, 103] "192.0.2.7:5000")).2.map
        (fun t => (handleConnectionUDP
          { dialErr := none, remoteAddr := "93.184.216.34:80", writeFails := false,
            reply := some [112, 111, 110, 103] } t).filter isWrite) =
      some [.write .remote ([112, 105, 110, 103] ++ List.replicate 1020 0)] ∧
    (handleUDPIter hostRule (.datagram [112, 105, 110, 103] "192.0.2.7:5000")).2.map
        (fun t => (handleConnectionUDP
          { dialErr := none, remoteAddr := "93.184.216.34:80", writeFails := false,
            reply := some [112, 111, 110, 103] } t).filter isWriteTo) =
      some [.writeTo .ln ([112, 111, 110, 103] ++ List.replicate 1020 0) "192.0.2.7:5000"] :=
  udp_relay_writes_whole_buffer hostRule
    { dialErr := none, remoteAddr := "93.184.216.34:80", writeFails := false,
      reply := some [112, 111, 110, 103] }
    [112, 105, 110, 103] [112, 111, 110, 103] "192.0.2.7:5000"
    (by decide) (by decide) rfl rfl rfl

/-- C9 (code defect): `handleConnectionUDP` closes no socket on any path: its
actions never include a `Close`, whatever the dial, the write and the read do.
The other half of the claim holds: bytes are written back to the sender exactly
when the dial, the write and the read all succeed. -/
theorem handleConnectionUDP_never_closes (up : Upstream) (t : UDPTask) :
    (handleConnectionUDP up t).any isClose = false ∧
      (handleConnectionUDP up t).any isWriteTo =
        (up.dialErr.isNone && !up.writeFails && up.reply.isSome) := by
  unfold handleConnectionUDP
  cases up.dialErr <;> cases up.writeFails <;> cases up.reply <;>
    simp [isClose, isWriteTo]

/-! ## Claims about the relay -/

/-- C10: when `io.Copy(src, dest)` ends at instant `a` and `io.Copy(dest, src)`
at instant `b`, `forward` returns at the later of the two, `max a b`, or 1200
seconds after its start, whichever comes first; when either copy never ends it
returns at 1200 seconds.  It prints "IOCopy exit" only if both copies have
ended by then, and on either path its last two actions are `dest.Close()` and
`src.Close()`, so both endpoints are closed when it returns. -/
theorem forward_returns_and_closes (tm : RelayTiming) :
    (forward tm).1 =
        (match tm.copyToSrc, tm.copyToDest with
          | some a, some b => min (max a b) (1200 * Second)
          | _, _ => 1200 * Second) ∧
      (forward tm).2.filter isClose = [.close .dest, .close .src] ∧
      (((forward tm).2 =
            [.go .copyToSrc, .go .copyToDest, .go .waiter, .print "IOCopy exit\n",
              .close .dest, .close .src] ∧
          ∃ a b, tm.copyToSrc = some a ∧ tm.copyToDest = some b ∧
            max a b ≤ 1200 * Second) ∨
        (forward tm).2 =
          [.go .copyToSrc, .go .copyToDest, .go .waiter, .print "IOCopy timeout\n",
            .close .dest, .close .src]) := by
  rcases tm with ⟨_ | a, _ | b, p⟩
  · simp [forward, bothDone, isClose, List.filter_cons]
  · simp [forward, bothDone, isClose, List.filter_cons]
  · simp [forward, bothDone, isClose, List.filter_cons]
  · simp only [forward, bothDone]
    split
    next hlt =>
      refine ⟨?_, by simp [isClose, List.filter_cons], Or.inl ⟨rfl, a, b, rfl, rfl, ?_⟩⟩
      · rcases hlt with h | ⟨h, _⟩
        · exact (Nat.min_eq_left (Nat.le_of_lt h)).symm
        · rw [h]; exact (Nat.min_self _).symm
      · rcases hlt with h | ⟨h, _⟩
        · exact Nat.le_of_lt h
        · exact Nat.le_of_eq h
    next hge =>
      refine ⟨?_, by simp [isClose, List.filter_cons], Or.inr rfl⟩
      have : 1200 * Second ≤ max a b := by
        by_contra hc
        exact hge (Or.inl (Nat.lt_of_not_le hc))
      exact (Nat.min_eq_right this).symm

/-- C10, at concrete timings: one copy ends after 5 seconds and the other after
10 seconds, and `forward` returns at 10 seconds; one copy ends after 5 seconds
and the other never, and `forward` returns at 1200 seconds; both paths close
both endpoints. -/
theorem forward_returns_and_closes_witness :
    forward { copyToSrc := some 5000000000, copyToDest := some 10000000000,
              preferDone := true } =
        (10000000000,
          [.go .copyToSrc, .go .copyToDest, .go .waiter, .print "IOCopy exit\n",
            .close .dest, .close .src]) ∧
      forward { copyToSrc := some 5000000000, copyToDest := none, preferDone := true } =
        (1200000000000,
          [.go .copyToSrc, .go .copyToDest, .go .waiter, .print "IOCopy timeout\n",
            .close .dest, .close .src]) :=
  have w := forward_returns_and_closes
    { copyToSrc := some 5000000000, copyToDest := some 10000000000, preferDone := true }
  ⟨Prod.ext w.1 (by decide), by decide⟩

end DynamicPortForward
